import Mathlib

/-!
Verification of the AdsMarket escrow ledger and blockchain settlement engine.

Shallow embedding of the Python backend (`backend_py/app`):
  * `order_payment.py`      — freeze / release / refund ledger primitives
  * `orders.py` (routes)    — create_order, cancel_order
  * `telegram_bot/handlers.py` — _set_order_done/_set_order_cancelled/_set_order_revision,
                                 cb_seller_approve, cb_seller_decline
  * `usdt_deposit_scanner.py` — memo-attributed USDT deposit crediting
  * `usdt_withdraw_sender.py` — withdrawal settlement with refund on failure
  * `order_verifier.py`     — delivery verification of published ad posts

Database rows become list entries; SQLAlchemy `scalar_one_or_none` over a
uniquely-keyed filter becomes `List.find?` on the first matching row, and a
committed row mutation becomes an update of that first matching row.
`Decimal` amounts become `ℚ` (exact fixed-point arithmetic).  Each Python
function that commits a transaction becomes one pure state-to-state function
(all-or-nothing by construction).  External effects (chain sends, indexer
polls, Telegram messages) are function parameters or returned observations.
-/

namespace AdsMarket

/-- Python `str.strip()`: drop leading and trailing whitespace. -/
def pyStrip (s : String) : String :=
  ⟨((s.data.dropWhile Char.isWhitespace).reverse.dropWhile Char.isWhitespace).reverse⟩

/-- Python slicing `s[:n]` (by code points). -/
def pyTake (s : String) (n : Nat) : String :=
  ⟨s.data.take n⟩

/-- Python `s.startswith(pre)`. -/
def pyStartsWith (s pre : String) : Bool :=
  pre.data.isPrefixOf s.data

/-- `int(s)` for an all-digit string. -/
def pyToNat (s : String) : Nat :=
  s.data.foldl (fun acc c => acc * 10 + (c.toNat - 48)) 0

/-- A generic first-match update: applies `f` to the first element satisfying
`p`, leaving the rest of the list alone (the row-level `UPDATE` of a uniquely
keyed row). -/
def updateFirst (p : α → Bool) (f : α → α) : List α → List α
  | [] => []
  | a :: rest => if p a then f a :: rest else a :: updateFirst p f rest

/-- `user_balances` row (`app/db/models.py`, class `UserBalance`). -/
structure UserBalance where
  telegram_id : Int
  currency : String
  available : ℚ
  frozen : ℚ
  total_deposited : ℚ
  total_withdrawn : ℚ
deriving Repr, DecidableEq

abbrev Balances := List UserBalance

/-- `select(UserBalance).where(telegram_id == tid, currency == cur)` with
`scalar_one_or_none` (rows are uniquely keyed by (telegram_id, currency)). -/
def lookupBal (bs : Balances) (tid : Int) (cur : String) : Option UserBalance :=
  bs.find? (fun b => b.telegram_id == tid && b.currency == cur)

/-- Committed mutation of the (tid, cur) balance row. -/
def updateBal (bs : Balances) (tid : Int) (cur : String) (f : UserBalance → UserBalance) :
    Balances :=
  updateFirst (fun b => b.telegram_id == tid && b.currency == cur) f bs

/-- `orders` row (`app/db/models.py`, class `Order`); timestamps are abstract
integers, `None` columns are `Option`. -/
structure Order where
  id : Int
  channel_id : Int
  format_id : Int
  buyer_telegram_id : Int
  seller_telegram_id : Int
  status : String
  payment_currency : Option String
  payment_amount : Option ℚ
  post_text_html : Option String
  post_media_file_id : Option String
  post_token : Option String
  seller_revision_comment : Option String
  done_at : Option Int
  published_post_link : Option String
  published_channel_message_id : Option Int
  verified_at : Option Int
deriving Repr, DecidableEq

def findOrder (os : List Order) (oid : Int) : Option Order :=
  os.find? (fun o => o.id == oid)

def updateOrder (os : List Order) (oid : Int) (f : Order → Order) : List Order :=
  updateFirst (fun o => o.id == oid) f os

/-- The shared mutable state touched by the escrow state machine. -/
structure EscrowDB where
  orders : List Order
  balances : Balances
deriving Repr, DecidableEq

/-- Python truthiness of an optional string (`not order.payment_currency`):
`None` and the empty string are falsy. -/
def truthyStr : Option String → Bool
  | none => false
  | some s => s ≠ ""

/-! ## `app/services/order_payment.py` -/

/-- `freeze_for_order(telegram_id, currency, amount)`: deduct from available,
add to frozen; `(False, unchanged)` when the row is missing or
`available < amount`. -/
def freeze_for_order (bs : Balances) (telegram_id : Int) (currency : String) (amount : ℚ) :
    Bool × Balances :=
  match lookupBal bs telegram_id currency with
  | none => (false, bs)
  | some bal =>
    if bal.available < amount then (false, bs)
    else
      (true, updateBal bs telegram_id currency (fun b =>
        { b with available := b.available - amount, frozen := b.frozen + amount }))

/-- `release_to_seller(order_id)`: on order done, unfreeze from the buyer and
credit the seller (creating the seller row if absent). -/
def release_to_seller (db : EscrowDB) (order_id : Int) : Bool × EscrowDB :=
  match findOrder db.orders order_id with
  | none => (true, db)
  | some order =>
    if !truthyStr order.payment_currency then (true, db)
    else
      match order.payment_currency, order.payment_amount with
      | some curr, some amt =>
        if order.status ≠ "done" then (false, db)
        else
          match lookupBal db.balances order.buyer_telegram_id curr with
          | none => (false, db)
          | some buyer_bal =>
            if buyer_bal.frozen < amt then (false, db)
            else
              let bs1 := updateBal db.balances order.buyer_telegram_id curr
                (fun b => { b with frozen := b.frozen - amt })
              let newSeller : UserBalance :=
                ⟨order.seller_telegram_id, curr, amt, 0, 0, 0⟩
              let bs2 :=
                match lookupBal bs1 order.seller_telegram_id curr with
                | some _ => updateBal bs1 order.seller_telegram_id curr
                    (fun b => { b with available := b.available + amt })
                | none => bs1 ++ [newSeller]
              (true, { db with balances := bs2 })
      | _, _ => (true, db)

/-- `refund_to_buyer(order_id)`: on order cancelled, move the frozen amount
back to the buyer's available balance.  Note: no order-status check. -/
def refund_to_buyer (db : EscrowDB) (order_id : Int) : Bool × EscrowDB :=
  match findOrder db.orders order_id with
  | none => (true, db)
  | some order =>
    if !truthyStr order.payment_currency then (true, db)
    else
      match order.payment_currency, order.payment_amount with
      | some curr, some amt =>
        match lookupBal db.balances order.buyer_telegram_id curr with
        | none => (false, db)
        | some buyer_bal =>
          if buyer_bal.frozen < amt then (false, db)
          else
            let bs1 := updateBal db.balances order.buyer_telegram_id curr
              (fun b => { b with frozen := b.frozen - amt, available := b.available + amt })
            (true, { db with balances := bs1 })
      | _, _ => (true, db)

/-! ## `app/api/routes/orders.py` -/

/-- Tail of `create_order` (from `routes/orders.py` line 147): after the
channel/format validation has computed `amount`, attempt the freeze; a failed
freeze raises HTTP 400 ("Недостаточно средств…") with no order row inserted,
a successful freeze inserts the `writing_post` order. -/
def create_order (db : EscrowDB) (telegram_id : Int) (currency : String) (amount : ℚ)
    (new_id : Int) (channel_id format_id : Int) (seller_telegram_id : Int)
    (post_token : String) : Except String EscrowDB :=
  match freeze_for_order db.balances telegram_id currency amount with
  | (false, _) => .error "Недостаточно средств"
  | (true, bs) =>
    .ok { orders := db.orders ++ [{
            id := new_id, channel_id := channel_id, format_id := format_id,
            buyer_telegram_id := telegram_id, seller_telegram_id := seller_telegram_id,
            status := "writing_post", payment_currency := some currency,
            payment_amount := some amount, post_text_html := none,
            post_media_file_id := none, post_token := some post_token,
            seller_revision_comment := none, done_at := none,
            published_post_link := none, published_channel_message_id := none,
            verified_at := none }],
          balances := bs }

/-- `cancel_order` route: buyer-only, rejected unless the status is
`writing_post` or `pending_seller`; on success sets `cancelled` and refunds. -/
def cancel_order (db : EscrowDB) (order_id : Int) (telegram_id : Int) :
    Except String EscrowDB :=
  match findOrder db.orders order_id with
  | none => .error "Order not found"
  | some order =>
    if order.buyer_telegram_id ≠ telegram_id then .error "Not your order"
    else if order.status ≠ "writing_post" ∧ order.status ≠ "pending_seller" then
      .error "Order cannot be cancelled in this status"
    else
      let os1 := updateOrder db.orders order_id (fun o => { o with status := "cancelled" })
      let db1 := { db with orders := os1 }
      .ok (refund_to_buyer db1 order_id).2

/-! ## `app/telegram_bot/handlers.py` — order transitions driven by the bot -/

/-- `_set_order_done(order_id, link, msg_id)`: unconditionally persists
`status = "done"` (with `done_at`, clearing the revision comment, recording
the publish location when given) and then calls `release_to_seller`, whose
return value is discarded.  Note: no check of the previous status. -/
def set_order_done (db : EscrowDB) (order_id : Int)
    (published_post_link : Option String) (published_channel_message_id : Option Int)
    (now : Int) : Bool × EscrowDB :=
  match findOrder db.orders order_id with
  | none => (false, db)
  | some _ =>
    let os1 := updateOrder db.orders order_id (fun o =>
      { o with status := "done", done_at := some now, seller_revision_comment := none,
               published_post_link :=
                 match published_post_link with
                 | some l => some l
                 | none => o.published_post_link,
               published_channel_message_id :=
                 match published_channel_message_id with
                 | some m => some m
                 | none => o.published_channel_message_id })
    let db1 := { db with orders := os1 }
    (true, (release_to_seller db1 order_id).2)

/-- `_set_order_revision(order_id, comment)`: unconditionally sets the status
back to `writing_post` with the seller's comment.  No status check. -/
def set_order_revision (db : EscrowDB) (order_id : Int) (comment : String) :
    Bool × EscrowDB :=
  match findOrder db.orders order_id with
  | none => (false, db)
  | some _ =>
    let os1 := updateOrder db.orders order_id (fun o =>
      { o with status := "writing_post", seller_revision_comment := some comment })
    (true, { db with orders := os1 })

/-- `_set_order_cancelled(order_id)`: unconditionally persists
`status = "cancelled"` and then calls `refund_to_buyer`, whose return value is
discarded.  Note: no check of the previous status. -/
def set_order_cancelled (db : EscrowDB) (order_id : Int) : Bool × EscrowDB :=
  match findOrder db.orders order_id with
  | none => (false, db)
  | some _ =>
    let os1 := updateOrder db.orders order_id (fun o => { o with status := "cancelled" })
    let db1 := { db with orders := os1 }
    (true, (refund_to_buyer db1 order_id).2)

/-- `cb_seller_approve`: the seller presses "Отправить".  Guards on the order
and its channel existing and on `status == "pending_seller"`, then performs
the external publish (`_publish_post_to_channel`, outcome passed in as
`publishOk` with the resulting link / message id) and only on publish success
calls `_set_order_done`.  Returns the resulting database state. -/
def cb_seller_approve (db : EscrowDB) (order_id : Int) (channelFound : Bool)
    (publishOk : Bool) (post_link : Option String) (msg_id : Option Int)
    (now : Int) : EscrowDB :=
  match findOrder db.orders order_id with
  | none => db
  | some order =>
    if !channelFound then db
    else if order.status ≠ "pending_seller" then db
    else if !publishOk then db
    else (set_order_done db order_id post_link msg_id now).2

/-- `cb_seller_decline`: the seller presses "Отказаться".  Calls
`_set_order_cancelled` directly — with no check of the order's status. -/
def cb_seller_decline (db : EscrowDB) (order_id : Int) : Bool × EscrowDB :=
  set_order_cancelled db order_id

/-! ## `app/services/usdt_deposit_scanner.py` -/

/-- `usdt_transactions` row (`app/db/models.py`, class `UsdtTransaction`). -/
structure UsdtTransaction where
  event_id : String
  telegram_id : Int
  amount : ℚ
  tx_type : String
  status : String
  memo : Option String
  destination_memo : Option String
  tx_hash : Option String
deriving Repr, DecidableEq

/-- Ledger-side state shared by the deposit scanner and the withdrawal
settler: balances, the external-transaction log, and the `users` table's
registered telegram ids (which the scanner never consults). -/
structure LedgerDB where
  balances : Balances
  usdt_txs : List UsdtTransaction
  users : List Int
deriving Repr, DecidableEq

/-- One TonAPI event action as the scanner reads it.  The Python code probes
several dict keys (`comment`, `decrypted_payload`, `payload`, nested or flat);
the collapsed result of that probing is the single `comment` field here, and
`amount` is the raw integer amount (USDT has 6 decimals). -/
structure JettonAction where
  atype : String
  amount : Option Int
  comment : Option String
deriving Repr, DecidableEq

/-- One TonAPI event: id fields with their fallback chain, plus actions. -/
structure DepositEvent where
  event_id : Option String
  hash : Option String
  lt : Option Int
  actions : List JettonAction
deriving Repr, DecidableEq

/-- First Python-truthy string of `a` falling back to `b`. -/
def pyOrStr (a : Option String) (b : String) : String :=
  match a with
  | some s => if s = "" then b else s
  | none => b

/-- `ev.get("event_id") or ev.get("hash") or str(ev.get("lt", ""))`. -/
def resolveEventId (ev : DepositEvent) : String :=
  pyOrStr ev.event_id (pyOrStr ev.hash (match ev.lt with | some n => toString n | none => ""))

/-- Python `str.isdigit()`: nonempty and all digit characters. -/
def pyIsDigit (s : String) : Bool :=
  s ≠ "" && s.data.all Char.isDigit

/-- Memo normalization at the end of `_parse_jetton_transfer`:
`str(comment).strip() if comment else None`, then `memo or None`. -/
def normMemo (c : Option String) : Option String :=
  match c with
  | none => none
  | some s => if s = "" then none else (if pyStrip s = "" then none else some (pyStrip s))

/-- `_parse_jetton_transfer(action)`: `None` unless the action is a Jetton
transfer with a positive amount; otherwise the USDT amount (raw / 10^6) and
the optional memo. -/
def parse_jetton_transfer (a : JettonAction) : Option (ℚ × Option String) :=
  if a.atype ≠ "JettonTransfer" ∧ a.atype ≠ "jetton_transfer" then none
  else
    match a.amount with
    | none => none
    | some raw =>
      let amount : ℚ := (raw : ℚ) / (10 ^ 6 : ℚ)
      if amount ≤ 0 then none
      else some (amount, normMemo a.comment)

/-- `_credit_usdt(telegram_id, amount, event_id)`: increment `available` and
`total_deposited` (creating the row on first credit) and insert the
`UsdtTransaction` deposit record — both inside one committed transaction. -/
def credit_usdt (db : LedgerDB) (telegram_id : Int) (amount : ℚ) (event_id : String) :
    LedgerDB :=
  let bs :=
    match lookupBal db.balances telegram_id "usdt" with
    | some _ => updateBal db.balances telegram_id "usdt" (fun b =>
        { b with available := b.available + amount,
                 total_deposited := b.total_deposited + amount })
    | none => db.balances ++ [⟨telegram_id, "usdt", amount, 0, amount, 0⟩]
  { db with balances := bs,
            usdt_txs := db.usdt_txs ++
              [⟨event_id, telegram_id, amount, "deposit", "completed", none, none, none⟩] }

/-- `_already_processed(event_id)`: a `UsdtTransaction` with this event id
exists. -/
def already_processed (db : LedgerDB) (event_id : String) : Bool :=
  db.usdt_txs.any (fun t => t.event_id == event_id)

/-- The scanner's inner action loop: skim actions until the first one that
parses as a Jetton transfer *and* carries an all-digit memo (others are
logged and skipped); that one is credited and the loop breaks. -/
def firstCreditable : List JettonAction → Option (ℚ × Int)
  | [] => none
  | a :: rest =>
    match parse_jetton_transfer a with
    | none => firstCreditable rest
    | some (amount, memo) =>
      match memo with
      | none => firstCreditable rest
      | some m =>
        if pyIsDigit m then some (amount, (pyToNat m : Int))
        else firstCreditable rest

/-- Processing of one fetched event inside `scan_usdt_deposits`: resolve the
event id (skip if empty), prepend `"usdt_"`, skip if already processed, else
credit the first creditable action.  Returns the new state and the number of
deposits credited (0 or 1). -/
def processDepositEvent (db : LedgerDB) (ev : DepositEvent) : LedgerDB × Nat :=
  let evId := resolveEventId ev
  if evId = "" then (db, 0)
  else
    let uniqueId := "usdt_" ++ evId
    if already_processed db uniqueId then (db, 0)
    else
      match firstCreditable ev.actions with
      | none => (db, 0)
      | some (amount, telegram_id) => (credit_usdt db telegram_id amount uniqueId, 1)

/-- `scan_usdt_deposits()` over an already-fetched event list: the `for ev in
events` loop, threading the database state and counting credited deposits. -/
def scan_usdt_deposits (db : LedgerDB) : List DepositEvent → LedgerDB × Nat
  | [] => (db, 0)
  | ev :: evs =>
    let r := processDepositEvent db ev
    let rest := scan_usdt_deposits r.1 evs
    (rest.1, r.2 + rest.2)

/-- The user's available USDT balance (0 when the row does not exist). -/
def availOf (db : LedgerDB) (telegram_id : Int) : ℚ :=
  match lookupBal db.balances telegram_id "usdt" with
  | some b => b.available
  | none => 0

/-! ## `app/api/routes/wallet.py` (USDT withdrawal request) and
`app/services/usdt_withdraw_sender.py` (settler) -/

def USDT_WITHDRAW_FEE : ℚ := 3 / 10

def USDT_WITHDRAW_MIN : ℚ := 10

def findTx (db : LedgerDB) (event_id : String) : Option UsdtTransaction :=
  db.usdt_txs.find? (fun t => t.event_id == event_id)

def updateTx (db : LedgerDB) (event_id : String) (f : UsdtTransaction → UsdtTransaction) :
    LedgerDB :=
  { db with usdt_txs := updateFirst (fun t => t.event_id == event_id) f db.usdt_txs }

/-- `usdt_withdraw` route: deduct the full requested amount from `available`
(adding it to `total_withdrawn`) and enqueue a pending withdrawal whose
recorded `amount` is net of the 0.3 USDT fee; rejected with HTTP 400 when the
balance row is missing or `available < amount`.  (Pydantic has already
enforced `amount ≥ 10` and an address of 40–256 characters.) -/
def usdt_withdraw (db : LedgerDB) (telegram_id : Int) (amount : ℚ) (address : String)
    (memoArg : Option String) (event_id : String) : Except String LedgerDB :=
  let total_deduct := amount
  let net_amount := amount - USDT_WITHDRAW_FEE
  match lookupBal db.balances telegram_id "usdt" with
  | none => .error "Insufficient USDT balance"
  | some usdt_bal =>
    if usdt_bal.available < total_deduct then .error "Insufficient USDT balance"
    else
      let bs := updateBal db.balances telegram_id "usdt" (fun b =>
        { b with available := b.available - total_deduct,
                 total_withdrawn := b.total_withdrawn + total_deduct })
      let dest_memo :=
        match memoArg with
        | some s => if s = "" then none else some (pyTake s 128)
        | none => none
      let tx : UsdtTransaction :=
        ⟨event_id, telegram_id, net_amount, "withdrawal", "pending",
         some (pyTake address 256), dest_memo, none⟩
      .ok { db with balances := bs, usdt_txs := db.usdt_txs ++ [tx] }

/-- `_refund_withdrawal(telegram_id, amount, fee)`: credit `amount + fee` back
to `available` and revert `total_withdrawn`; silently does nothing if the
balance row is missing. -/
def refund_withdrawal (bs : Balances) (telegram_id : Int) (amount_usdt fee : ℚ) :
    Balances :=
  let gross := amount_usdt + fee
  match lookupBal bs telegram_id "usdt" with
  | none => bs
  | some _ => updateBal bs telegram_id "usdt" (fun b =>
      { b with available := b.available + gross,
               total_withdrawn := b.total_withdrawn - gross })

/-- The finality value after the settler's bounded verification loop
(`for attempt in range(3)`): no loop at all when no tx hash was found,
otherwise the first non-unknown of the three `_verify_tx_success` attempts. -/
def firstVerify (foundHash : Option String) (v1 v2 v3 : Option Bool) : Option Bool :=
  match foundHash with
  | none => none
  | some _ => v1 <|> (v2 <|> v3)

/-- One iteration of `process_pending_withdrawals` for the pending withdrawal
row `event_id`.  External observations are parameters: `sendResult` is the
outcome of `_send_jetton_withdrawal` (`none` = send failed, `some jw` = sent,
with the resolved jetton-wallet address), `foundHash` the outcome of
`_fetch_tx_hash_from_tonapi`, and `v1 v2 v3` the three bounded
`_verify_tx_success` attempts. -/
def process_one_withdrawal (db : LedgerDB) (event_id : String)
    (sendResult : Option (Option String)) (foundHash : Option String)
    (v1 v2 v3 : Option Bool) : LedgerDB :=
  match findTx db event_id with
  | none => db
  | some tx =>
    let memoBad : Bool :=
      match tx.memo with
      | none => true
      | some a => a == "" || decide (a.length < 40)
    if memoBad then
      let db1 := updateTx db event_id (fun t => { t with status := "failed" })
      { db1 with balances := refund_withdrawal db1.balances tx.telegram_id tx.amount USDT_WITHDRAW_FEE }
    else
      match lookupBal db.balances tx.telegram_id "usdt" with
      | none =>
        let db1 := updateTx db event_id (fun t => { t with status := "failed" })
        { db1 with balances := refund_withdrawal db1.balances tx.telegram_id tx.amount USDT_WITHDRAW_FEE }
      | some bal =>
        if bal.available < 0 then
          let db1 := updateTx db event_id (fun t => { t with status := "failed" })
          { db1 with balances := refund_withdrawal db1.balances tx.telegram_id tx.amount USDT_WITHDRAW_FEE }
        else
          match sendResult with
          | none =>
            let db1 := updateTx db event_id (fun t => { t with status := "failed" })
            { db1 with balances := refund_withdrawal db1.balances tx.telegram_id tx.amount USDT_WITHDRAW_FEE }
          | some _ =>
            let db1 := updateTx db event_id (fun t => { t with tx_hash := foundHash })
            match firstVerify foundHash v1 v2 v3 with
            | some false =>
              let db2 := updateTx db1 event_id (fun t => { t with status := "failed" })
              { db2 with balances := refund_withdrawal db2.balances tx.telegram_id tx.amount USDT_WITHDRAW_FEE }
            | some true => updateTx db1 event_id (fun t => { t with status := "completed" })
            | none => updateTx db1 event_id (fun t => { t with status := "completed" })

/-! ## `app/services/order_verifier.py` -/

/-- The tag-removal pass of `_normalize_text`: `re.sub(r"<[^>]+>", "", s)`.
Each `<`, followed by at least one non-`>` character and then a `>`, is
removed together with that span; a `<` with no such closing `>` (or with `>`
immediately next) is kept.  The recursion consumes at least one character per
step, so `fuel` bounded below by the list length makes the `0` case
unreachable. -/
def stripTagsAux : Nat → List Char → List Char
  | 0, l => l
  | _ + 1, [] => []
  | fuel + 1, c :: rest =>
    if c = '<' then
      let body := rest.takeWhile (fun x => x ≠ '>')
      let after := rest.dropWhile (fun x => x ≠ '>')
      if body ≠ [] ∧ after ≠ [] then stripTagsAux fuel after.tail
      else c :: stripTagsAux fuel rest
    else c :: stripTagsAux fuel rest

def stripTags (s : String) : String :=
  ⟨stripTagsAux s.data.length s.data⟩

/-- Python `str.split()` with no argument: split on whitespace runs, dropping
empty fields.  `acc` is the current word being read, in reverse. -/
def splitWsAux : List Char → List Char → List String
  | [], acc => if acc = [] then [] else [⟨acc.reverse⟩]
  | c :: rest, acc =>
    if c.isWhitespace then
      if acc = [] then splitWsAux rest []
      else ⟨acc.reverse⟩ :: splitWsAux rest []
    else splitWsAux rest (c :: acc)

def pySplitWs (s : String) : List String :=
  splitWsAux s.data []

/-- `" ".join(words)`. -/
def joinSpace : List String → String
  | [] => ""
  | [w] => w
  | w :: rest => w ++ " " ++ joinSpace rest

/-- `_normalize_text(s)`: strip HTML tags, collapse whitespace. -/
def normalize_text (s : String) : String :=
  if s = "" then ""
  else joinSpace (pySplitWs (stripTags s))

/-- `_build_expected_text(order, has_media)`: normalized stored body plus the
appended `#Реклама` hashtag, truncated to 1000 chars + "..." for long media
captions. -/
def build_expected_text (o : Order) (has_media : Bool) : String :=
  let body := pyStrip (o.post_text_html.getD "")
  let full := normalize_text (body ++ "\n\n#Реклама")
  if has_media ∧ 1024 < full.length then pyStrip (pyTake full 1000 ++ "...")
  else full

/-- Python `str.rstrip(".")`. -/
def rstripDots (s : String) : String :=
  ⟨(s.data.reverse.dropWhile (fun c => c = '.')).reverse⟩

/-- `_content_matches(expected, current, order)`. -/
def content_matches (expected current : String) (o : Order) : Bool :=
  if expected = "" then true
  else if expected = current then true
  else if current = "" then false
  else if o.post_media_file_id.isSome ∧ 1024 < expected.length then
    let truncated := pyStrip (pyTake expected 1000 ++ "...")
    if current = truncated then true
    else if current.length ≤ 1024 ∧ pyStartsWith expected (rstripDots current) then true
    else false
  else false

/-- Buyer/seller notification targets of `_notify_post_edited`: the buyer if
its id is truthy, then the seller if truthy and distinct from the buyer. -/
def notifyPostEdited (o : Order) : List Int :=
  (if o.buyer_telegram_id ≠ 0 then [o.buyer_telegram_id] else []) ++
    (if o.seller_telegram_id ≠ 0 ∧ o.seller_telegram_id ≠ o.buyer_telegram_id then
      [o.seller_telegram_id] else [])

/-- The comparison/marking tail of `verify_pending_orders` for one due order
whose post still exists (`handlers` lines 157–172): on a non-empty expected
text that fails `_content_matches`, notify both parties and leave the order
untouched; otherwise set `verified_at = now`.  Returns the updated order and
the list of notified telegram ids. -/
def verify_mark (o : Order) (expected current : String) (now : Int) :
    Order × List Int :=
  if expected ≠ "" ∧ content_matches expected current o = false then
    (o, notifyPostEdited o)
  else ({ o with verified_at := some now }, [])

/-- One due order's pass through `verify_pending_orders` after the channel
lookup: `postExists` and `current` are the result of `_fetch_post_content`.
A missing post is only logged (`continue`): the order is left untouched and
nobody is notified. -/
def verify_order_step (o : Order) (postExists : Bool) (current : String) (now : Int) :
    Order × List Int :=
  if !postExists then (o, [])
  else verify_mark o (build_expected_text o o.post_media_file_id.isSome) current now

/-! ## Derived state for the claims -/

/-- The three escrow ledger operations of `order_payment.py`, for stating
conservation over arbitrary call sequences. -/
inductive EscrowOp where
  | freeze (telegram_id : Int) (currency : String) (amount : ℚ)
  | release (order_id : Int)
  | refund (order_id : Int)

/-- Apply one escrow operation (successful or failed — a failed call leaves
the state unchanged). -/
def applyOp (db : EscrowDB) : EscrowOp → EscrowDB
  | .freeze tid cur amt => { db with balances := (freeze_for_order db.balances tid cur amt).2 }
  | .release oid => (release_to_seller db oid).2
  | .refund oid => (refund_to_buyer db oid).2

def applyOps (db : EscrowDB) (ops : List EscrowOp) : EscrowDB :=
  ops.foldl applyOp db

/-- `Σ (available + frozen)` over all balance rows. -/
def sumAF (bs : Balances) : ℚ :=
  (bs.map (fun b => b.available + b.frozen)).sum

/-- Concrete state for the terminal-state claim: order 1 is already `done`
(its 30 USDT were released to the seller), and the buyer holds 30 USDT frozen
in escrow for a different, still active order. -/
def terminalOrder : Order :=
  ⟨1, 10, 20, 100, 200, "done", some "usdt", some 30, none, none, none, none,
   some 0, none, none, none⟩

def terminalDB : EscrowDB :=
  ⟨[terminalOrder], [⟨100, "usdt", 0, 30, 0, 0⟩, ⟨200, "usdt", 30, 0, 0, 0⟩]⟩

/-- Concrete deposit event whose memo "42" is numeric but names no registered
user (the `users` table only contains 5). -/
def strayMemoEvent : DepositEvent :=
  ⟨some "e1", none, none, [⟨"JettonTransfer", some 1000000, some "42"⟩]⟩

def strayMemoDB : LedgerDB :=
  ⟨[], [], [5]⟩

/-- Concrete `done` order for the delivery-verifier claims. -/
def missingPostOrder : Order :=
  ⟨9, 10, 20, 77, 88, "done", some "usdt", some 30, some "hello", none, none,
   none, some 0, none, some 555, none⟩

/-- Concrete `pending_seller` order and state for the publish-before-done
claim. -/
def approveOrder : Order :=
  ⟨3, 10, 20, 100, 200, "pending_seller", some "usdt", some 30, some "txt",
   none, none, none, none, none, none, none⟩

def approveDB : EscrowDB :=
  ⟨[approveOrder], [⟨100, "usdt", 0, 30, 0, 0⟩]⟩

/-- A 40-character TON address for the withdrawal claims. -/
def wdAddr : String := "UQabcdefghijklmnopqrstuvwxyz0123456789AB"

/-- Concrete state for the withdrawal-failure-refund witness. -/
def wdDB : LedgerDB :=
  ⟨[⟨50, "usdt", 20, 0, 0, 7⟩], [], []⟩

/-- Concrete state for the optimistic-completion witness: user 60 has already
been debited for a pending withdrawal of net 9.7 USDT. -/
def unkDB : LedgerDB :=
  ⟨[⟨60, "usdt", 5, 0, 0, 10⟩],
   [⟨"wd_2", 60, 97 / 10, "withdrawal", "pending", some wdAddr, none, none⟩], []⟩

/-- Concrete event for the amended memo-attribution witness. -/
def memoEvent : DepositEvent :=
  ⟨some "e7", none, none, [⟨"JettonTransfer", some 2000000, some " 314 "⟩]⟩

def memoDB : LedgerDB :=
  ⟨[⟨314, "usdt", 1, 2, 3, 4⟩], [⟨"usdt_old", 314, 1, "deposit", "completed", none, none, none⟩], [314]⟩

/-! ## Helper lemmas -/

theorem find?_updateFirst (p : α → Bool) (f : α → α)
    (hf : ∀ a, p a = true → p (f a) = true) :
    ∀ l : List α, (updateFirst p f l).find? p = (l.find? p).map f := by
  intro l
  induction l with
  | nil => simp [updateFirst]
  | cons a rest ih =>
    by_cases h : p a = true
    · simp [updateFirst, h, List.find?_cons_of_pos, hf a h]
    · have h2 : p a = false := by
        cases hpa : p a
        · rfl
        · exact absurd hpa h
      simp [updateFirst, h2, List.find?_cons_of_neg, ih]

theorem find?_append_first (p : α → Bool) :
    ∀ l₁ l₂ : List α, (l₁ ++ l₂).find? p =
      (match l₁.find? p with
       | some a => some a
       | none => l₂.find? p) := by
  intro l₁ l₂
  induction l₁ with
  | nil => simp
  | cons a rest ih =>
    by_cases h : p a = true
    · simp [List.find?_cons_of_pos, h]
    · have h2 : p a = false := by
        cases hpa : p a
        · rfl
        · exact absurd hpa h
      simp [List.find?_cons_of_neg, h2, ih]

theorem sum_map_updateFirst (g : α → ℚ) (p : α → Bool) (f : α → α) :
    ∀ l : List α, ((updateFirst p f l).map g).sum =
      (l.map g).sum +
        (match l.find? p with
         | some a => g (f a) - g a
         | none => 0) := by
  intro l
  induction l with
  | nil => simp [updateFirst]
  | cons a rest ih =>
    by_cases h : p a = true
    · simp [updateFirst, h, List.find?_cons_of_pos]
      ring
    · have h2 : p a = false := by
        cases hpa : p a
        · rfl
        · exact absurd hpa h
      simp [updateFirst, h2, List.find?_cons_of_neg, ih]
      cases rest.find? p
      · simp
      · simp
        ring

theorem sumAF_updateBal_delta (bs : Balances) (tid : Int) (cur : String)
    (f : UserBalance → UserBalance) (d : ℚ)
    (hf : ∀ b, (f b).available + (f b).frozen = b.available + b.frozen + d)
    (b : UserBalance) (hb : lookupBal bs tid cur = some b) :
    sumAF (updateBal bs tid cur f) = sumAF bs + d := by
  unfold lookupBal at hb
  simp [sumAF, updateBal, sum_map_updateFirst, hb]
  linear_combination hf b

theorem sumAF_updateBal_preserve (bs : Balances) (tid : Int) (cur : String)
    (f : UserBalance → UserBalance)
    (hf : ∀ b, (f b).available + (f b).frozen = b.available + b.frozen) :
    sumAF (updateBal bs tid cur f) = sumAF bs := by
  simp only [sumAF, updateBal, sum_map_updateFirst]
  cases h : List.find? (fun b => b.telegram_id == tid && b.currency == cur) bs
  · simp
  · simp [hf]

theorem sumAF_append (bs : Balances) (b : UserBalance) :
    sumAF (bs ++ [b]) = sumAF bs + (b.available + b.frozen) := by
  simp [sumAF]

theorem sumAF_freeze (bs : Balances) (tid : Int) (cur : String) (amt : ℚ) :
    sumAF (freeze_for_order bs tid cur amt).2 = sumAF bs := by
  unfold freeze_for_order
  cases h : lookupBal bs tid cur with
  | none => simp
  | some bal =>
    by_cases hav : bal.available < amt
    · simp [hav]
    · simp only [hav, if_false]
      exact sumAF_updateBal_preserve bs tid cur _ (fun b => by dsimp only; ring)

theorem sumAF_release (db : EscrowDB) (oid : Int) :
    sumAF (release_to_seller db oid).2.balances = sumAF db.balances := by
  unfold release_to_seller
  cases hor : findOrder db.orders oid with
  | none => simp
  | some order =>
    by_cases htr : truthyStr order.payment_currency = true
    · cases hc : order.payment_currency with
      | none => simp [truthyStr, hc] at htr
      | some curr =>
        rw [hc] at htr
        cases ha : order.payment_amount with
        | none => simp [htr, hc, ha]
        | some amt =>
          by_cases hst : order.status = "done"
          · cases hbuy : lookupBal db.balances order.buyer_telegram_id curr with
            | none => simp [htr, hc, ha, hst, hbuy]
            | some buyer_bal =>
              by_cases hfr : buyer_bal.frozen < amt
              · simp [htr, hc, ha, hst, hbuy, hfr]
              · have h1 : sumAF (updateBal db.balances order.buyer_telegram_id curr
                    (fun b => { b with frozen := b.frozen - amt })) =
                    sumAF db.balances + (-amt) :=
                  sumAF_updateBal_delta db.balances order.buyer_telegram_id curr _ (-amt)
                    (fun b => by dsimp only; ring) buyer_bal hbuy
                cases hsell : lookupBal
                    (updateBal db.balances order.buyer_telegram_id curr
                      (fun b => { b with frozen := b.frozen - amt }))
                    order.seller_telegram_id curr with
                | none =>
                  simp [htr, hc, ha, hst, hbuy, hfr, hsell, sumAF_append, h1]
                | some sb =>
                  have h2 : sumAF (updateBal
                      (updateBal db.balances order.buyer_telegram_id curr
                        (fun b => { b with frozen := b.frozen - amt }))
                      order.seller_telegram_id curr
                      (fun b => { b with available := b.available + amt })) =
                      sumAF (updateBal db.balances order.buyer_telegram_id curr
                        (fun b => { b with frozen := b.frozen - amt })) + amt :=
                    sumAF_updateBal_delta _ order.seller_telegram_id curr _ amt
                      (fun b => by dsimp only; ring) sb hsell
                  simp [htr, hc, ha, hst, hbuy, hfr, hsell, h2, h1]
          · simp [htr, hc, ha, hst]
    · have htr2 : truthyStr order.payment_currency = false := by
        cases h : truthyStr order.payment_currency
        · rfl
        · exact absurd h htr
      simp [htr2]

theorem sumAF_refund (db : EscrowDB) (oid : Int) :
    sumAF (refund_to_buyer db oid).2.balances = sumAF db.balances := by
  unfold refund_to_buyer
  cases hor : findOrder db.orders oid with
  | none => simp
  | some order =>
    by_cases htr : truthyStr order.payment_currency = true
    · cases hc : order.payment_currency with
      | none => simp [truthyStr, hc] at htr
      | some curr =>
        rw [hc] at htr
        cases ha : order.payment_amount with
        | none => simp [htr, hc, ha]
        | some amt =>
          cases hbuy : lookupBal db.balances order.buyer_telegram_id curr with
          | none => simp [htr, hc, ha, hbuy]
          | some buyer_bal =>
            by_cases hfr : buyer_bal.frozen < amt
            · simp [htr, hc, ha, hbuy, hfr]
            · have h1 : sumAF (updateBal db.balances order.buyer_telegram_id curr
                  (fun b => { b with frozen := b.frozen - amt,
                                     available := b.available + amt })) =
                  sumAF db.balances :=
                sumAF_updateBal_preserve db.balances order.buyer_telegram_id curr _
                  (fun b => by dsimp only; ring)
              simp [htr, hc, ha, hbuy, hfr, h1]
    · have htr2 : truthyStr order.payment_currency = false := by
        cases h : truthyStr order.payment_currency
        · rfl
        · exact absurd h htr
      simp [htr2]

theorem sumAF_applyOp (db : EscrowDB) (op : EscrowOp) :
    sumAF (applyOp db op).balances = sumAF db.balances := by
  cases op with
  | freeze tid cur amt => simpa using sumAF_freeze db.balances tid cur amt
  | release oid => exact sumAF_release db oid
  | refund oid => exact sumAF_refund db oid

/-! ## Claim theorems -/

/-- C2: Conservation — every sequence of freeze / release / refund calls (and
every single call, successful or failed) leaves `Σ(available) + Σ(frozen)`
over all balance rows unchanged; no value is created or destroyed by the
escrow operations alone. -/
theorem escrow_conservation (db : EscrowDB) (ops : List EscrowOp) :
    sumAF (applyOps db ops).balances = sumAF db.balances ∧
    ∀ op : EscrowOp, sumAF (applyOp db op).balances = sumAF db.balances := by
  constructor
  · induction ops generalizing db with
    | nil => rfl
    | cons op rest ih =>
      calc sumAF (applyOps db (op :: rest)).balances
          = sumAF (applyOps (applyOp db op) rest).balances := rfl
        _ = sumAF (applyOp db op).balances := ih (applyOp db op)
        _ = sumAF db.balances := sumAF_applyOp db op
  · exact sumAF_applyOp db

/-- C1 (recording the code's divergence): from the terminal state `done`, the
seller-decline path (`cb_seller_decline` → `_set_order_cancelled`) is *not*
rejected: it reports success, flips order 1 from `done` to `cancelled`, and
`refund_to_buyer` moves 30 USDT of the buyer's frozen escrow (held for a
different active order) back to available — a ledger mutation from a terminal
state. -/
theorem terminal_decline_mutates_ledger :
    (findOrder terminalDB.orders 1).map (fun o => o.status) = some "done" ∧
    (cb_seller_decline terminalDB 1).1 = true ∧
    (findOrder (cb_seller_decline terminalDB 1).2.orders 1).map (fun o => o.status) =
      some "cancelled" ∧
    lookupBal (cb_seller_decline terminalDB 1).2.balances 100 "usdt" =
      some ⟨100, "usdt", 30, 0, 0, 0⟩ ∧
    lookupBal terminalDB.balances 100 "usdt" = some ⟨100, "usdt", 0, 30, 0, 0⟩ := by
  norm_num [cb_seller_decline, set_order_cancelled, refund_to_buyer, terminalDB, terminalOrder,
    findOrder, updateOrder, updateFirst, lookupBal, updateBal, truthyStr, List.find?]

/-- C5: Publish-before-done — for a `pending_seller` order, a failed external
publish leaves the whole state (order status and all balances) unchanged, so
the approval is retryable; and the order can only end up `done` after this
handler if the publish succeeded.  (In `cb_seller_approve` the publish is
sequenced before `_set_order_done`, which persists `done` and only then
releases the escrow.) -/
theorem publish_before_done (db : EscrowDB) (oid : Int) (o : Order)
    (hfind : findOrder db.orders oid = some o) (hstat : o.status = "pending_seller")
    (chF : Bool) (link : Option String) (msgId : Option Int) (now : Int) :
    cb_seller_approve db oid chF false link msgId now = db ∧
    ∀ pubOk o2,
      findOrder (cb_seller_approve db oid chF pubOk link msgId now).orders oid = some o2 →
      o2.status = "done" → pubOk = true := by
  have hfalse : cb_seller_approve db oid chF false link msgId now = db := by
    unfold cb_seller_approve
    rw [hfind]
    cases chF
    · simp
    · simp [hstat]
  refine ⟨hfalse, ?_⟩
  intro pubOk o2 h2 hdone
  cases pubOk
  · rw [hfalse, hfind] at h2
    injection h2 with h3
    rw [← h3, hstat] at hdone
    exact absurd hdone (by decide)
  · rfl

/-- C5 witness: at the concrete pending order 3, a failed publish leaves the
state unchanged. -/
theorem publish_before_done_witness :
    cb_seller_approve approveDB 3 true false (some "link") (some 7) 11 = approveDB :=
  (publish_before_done approveDB 3 approveOrder rfl rfl true (some "link") (some 7) 11).1

/-- C6: Freeze semantics — `freeze_for_order` returns `false` and mutates
nothing when the balance row is missing or `available < amount`, otherwise it
moves exactly `amount` from available to frozen and returns `true`; and
`create_order` rejects the request (no order row inserted) whenever the
freeze returns `false`. -/
theorem freeze_semantics (bs : Balances) (tid : Int) (cur : String) (amt : ℚ) :
    ((lookupBal bs tid cur = none ∨ ∃ b, lookupBal bs tid cur = some b ∧ b.available < amt) →
      freeze_for_order bs tid cur amt = (false, bs)) ∧
    (∀ b, lookupBal bs tid cur = some b → amt ≤ b.available →
      freeze_for_order bs tid cur amt =
        (true, updateBal bs tid cur (fun x =>
          { x with available := x.available - amt, frozen := x.frozen + amt }))) ∧
    (∀ (db : EscrowDB) (oid ch fm seller : Int) (token : String),
      db.balances = bs → (freeze_for_order bs tid cur amt).1 = false →
      create_order db tid cur amt oid ch fm seller token = .error "Недостаточно средств") := by
  refine ⟨?_, ?_, ?_⟩
  · rintro (hnone | ⟨b, hb, hlt⟩)
    · simp [freeze_for_order, hnone]
    · simp [freeze_for_order, hb, hlt]
  · intro b hb hle
    have hnl : ¬ b.available < amt := not_lt.mpr hle
    simp [freeze_for_order, hb, hnl]
  · intro db oid ch fm seller token hdb hfail
    unfold create_order
    rw [hdb]
    cases hf : freeze_for_order bs tid cur amt with
    | mk ok bs2 =>
      rw [hf] at hfail
      simp at hfail
      subst hfail
      rfl

/-- C6 witness: freezing 4 USDT against an available balance of 10 succeeds
and moves exactly 4 from available to frozen. -/
theorem freeze_semantics_witness :
    freeze_for_order [⟨7, "usdt", 10, 0, 0, 0⟩] 7 "usdt" 4 =
      (true, updateBal [⟨7, "usdt", 10, 0, 0, 0⟩] 7 "usdt" (fun x =>
        { x with available := x.available - 4, frozen := x.frozen + 4 })) :=
  (freeze_semantics [⟨7, "usdt", 10, 0, 0, 0⟩] 7 "usdt" 4).2.1 ⟨7, "usdt", 10, 0, 0, 0⟩ rfl
    (by norm_num)

theorem lookupBal_updateBal (bs : Balances) (tid : Int) (cur : String)
    (f : UserBalance → UserBalance)
    (hf : ∀ b, (f b).telegram_id = b.telegram_id ∧ (f b).currency = b.currency) :
    lookupBal (updateBal bs tid cur f) tid cur = (lookupBal bs tid cur).map f := by
  unfold lookupBal updateBal
  apply find?_updateFirst
  intro a ha
  rw [(hf a).1, (hf a).2]
  exact ha

theorem lookupBal_append_self (bs : Balances) (tid : Int) (cur : String) (b : UserBalance)
    (hnone : lookupBal bs tid cur = none)
    (hid : b.telegram_id = tid) (hcur : b.currency = cur) :
    lookupBal (bs ++ [b]) tid cur = some b := by
  unfold lookupBal at *
  rw [find?_append_first, hnone]
  simp [List.find?, hid, hcur]

theorem processDepositEvent_txs (db : LedgerDB) (ev : DepositEvent) :
    ∃ l, (processDepositEvent db ev).1.usdt_txs = db.usdt_txs ++ l := by
  unfold processDepositEvent
  by_cases h1 : resolveEventId ev = ""
  · exact ⟨[], by simp [h1]⟩
  · cases h2 : already_processed db ("usdt_" ++ resolveEventId ev) with
    | true => exact ⟨[], by simp [h1, h2]⟩
    | false =>
      have h2f := h2
      simp only [already_processed] at h2f
      cases hc : firstCreditable ev.actions with
      | none => exact ⟨[], by simp [h1, h2, hc]⟩
      | some x =>
        refine ⟨[⟨"usdt_" ++ resolveEventId ev, x.2, x.1, "deposit", "completed",
          none, none, none⟩], ?_⟩
        simp [h1, hc, credit_usdt, already_processed, h2f]

theorem already_processed_mono (db : LedgerDB) (ev : DepositEvent) (uid : String)
    (h : already_processed db uid = true) :
    already_processed (processDepositEvent db ev).1 uid = true := by
  obtain ⟨l, hl⟩ := processDepositEvent_txs db ev
  unfold already_processed at *
  rw [hl]
  simp [List.any_append, h]

theorem processed_after (db : LedgerDB) (ev : DepositEvent) (x : ℚ × Int)
    (hc : firstCreditable ev.actions = some x) (hid : resolveEventId ev ≠ "") :
    already_processed (processDepositEvent db ev).1 ("usdt_" ++ resolveEventId ev) = true := by
  unfold processDepositEvent
  cases h2 : already_processed db ("usdt_" ++ resolveEventId ev) with
  | true => simp [hid, h2]
  | false =>
    have h2f := h2
    simp only [already_processed] at h2f
    simp [hid, h2f, hc, credit_usdt, already_processed, List.any_append]

theorem process_noop (db : LedgerDB) (ev : DepositEvent)
    (h : resolveEventId ev = "" ∨ firstCreditable ev.actions = none ∨
         already_processed db ("usdt_" ++ resolveEventId ev) = true) :
    processDepositEvent db ev = (db, 0) := by
  unfold processDepositEvent
  rcases h with h | h | h
  · simp [h]
  · by_cases hid : resolveEventId ev = ""
    · simp [hid]
    · cases hap : already_processed db ("usdt_" ++ resolveEventId ev) with
      | true => simp [hid, hap]
      | false => simp [hid, hap, h]
  · by_cases hid : resolveEventId ev = ""
    · simp [hid]
    · simp [hid, h]

theorem scan_processed_mono :
    ∀ (evs : List DepositEvent) (db : LedgerDB) (uid : String),
    already_processed db uid = true →
    already_processed (scan_usdt_deposits db evs).1 uid = true := by
  intro evs
  induction evs with
  | nil =>
    intro db uid h
    simpa [scan_usdt_deposits] using h
  | cons ev rest ih =>
    intro db uid h
    simp only [scan_usdt_deposits]
    exact ih _ _ (already_processed_mono db ev uid h)

theorem scan_marks :
    ∀ (evs : List DepositEvent) (db : LedgerDB) (ev : DepositEvent),
    ev ∈ evs → resolveEventId ev ≠ "" → ∀ x, firstCreditable ev.actions = some x →
    already_processed (scan_usdt_deposits db evs).1 ("usdt_" ++ resolveEventId ev) = true := by
  intro evs
  induction evs with
  | nil =>
    intro db ev hmem
    cases hmem
  | cons e rest ih =>
    intro db ev hmem hid x hc
    rcases List.mem_cons.mp hmem with heq | hmem2
    · subst heq
      simp only [scan_usdt_deposits]
      exact scan_processed_mono rest _ _ (processed_after db ev x hc hid)
    · simp only [scan_usdt_deposits]
      exact ih _ ev hmem2 hid x hc

theorem scan_noop :
    ∀ (evs : List DepositEvent) (db : LedgerDB),
    (∀ ev ∈ evs, resolveEventId ev = "" ∨ firstCreditable ev.actions = none ∨
      already_processed db ("usdt_" ++ resolveEventId ev) = true) →
    scan_usdt_deposits db evs = (db, 0) := by
  intro evs
  induction evs with
  | nil =>
    intro db _
    rfl
  | cons ev rest ih =>
    intro db h
    have hno : processDepositEvent db ev = (db, 0) :=
      process_noop db ev (h ev (List.mem_cons_self ev rest))
    have h2 : scan_usdt_deposits db rest = (db, 0) :=
      ih db (fun e he => h e (List.mem_cons_of_mem _ he))
    simp [scan_usdt_deposits, hno, h2]

/-- One `_credit_usdt` call both credits the available balance and inserts
the record keyed by the event id — in the model a single atomic state
update. -/
theorem credit_usdt_effect (db : LedgerDB) (tid : Int) (amt : ℚ) (eid : String) :
    availOf (credit_usdt db tid amt eid) tid = availOf db tid + amt ∧
    already_processed (credit_usdt db tid amt eid) eid = true := by
  constructor
  · unfold availOf credit_usdt
    cases hb : lookupBal db.balances tid "usdt" with
    | none =>
      simp only [hb]
      rw [lookupBal_append_self db.balances tid "usdt" _ hb rfl rfl]
      simp
    | some b =>
      simp only [hb]
      rw [lookupBal_updateBal db.balances tid "usdt"
        (fun b => { b with available := b.available + amt,
                           total_deposited := b.total_deposited + amt })
        (fun b => ⟨rfl, rfl⟩), hb]
      simp
  · simp [credit_usdt, already_processed, List.any_append]

/-- C3: Idempotent deposit crediting — running the USDT deposit scan a second
time over the same event list is a no-op (every event is either uncreditable
or already recorded under its unique id, so the second pass credits nothing);
and `_credit_usdt` is atomic: one call both raises the user's available
balance by the amount and inserts the `UsdtTransaction` record keyed by the
event id. -/
theorem deposit_scan_idempotent (db : LedgerDB) (evs : List DepositEvent) :
    scan_usdt_deposits (scan_usdt_deposits db evs).1 evs = ((scan_usdt_deposits db evs).1, 0) ∧
    ∀ (tid : Int) (amt : ℚ) (eid : String),
      availOf (credit_usdt db tid amt eid) tid = availOf db tid + amt ∧
      already_processed (credit_usdt db tid amt eid) eid = true := by
  constructor
  · apply scan_noop
    intro ev hmem
    by_cases hid : resolveEventId ev = ""
    · exact Or.inl hid
    · cases hc : firstCreditable ev.actions with
      | none => exact Or.inr (Or.inl rfl)
      | some x => exact Or.inr (Or.inr (scan_marks evs db ev hmem hid x hc))
  · exact fun tid amt eid => credit_usdt_effect db tid amt eid

theorem findTx_updateTx (db : LedgerDB) (eid : String)
    (f : UsdtTransaction → UsdtTransaction) (hf : ∀ t, (f t).event_id = t.event_id) :
    findTx (updateTx db eid f) eid = (findTx db eid).map f := by
  unfold findTx updateTx
  apply find?_updateFirst
  intro t ht
  rw [hf t]
  exact ht

/-- Successful `usdt_withdraw` in explicit form. -/
theorem usdt_withdraw_ok (db : LedgerDB) (tid : Int) (A : ℚ) (addr : String)
    (m : Option String) (eid : String) (b : UserBalance)
    (hb : lookupBal db.balances tid "usdt" = some b) (hnl : ¬ b.available < A) :
    usdt_withdraw db tid A addr m eid = .ok
      { db with
        balances := updateBal db.balances tid "usdt" (fun bb =>
          { bb with available := bb.available - A,
                    total_withdrawn := bb.total_withdrawn + A }),
        usdt_txs := db.usdt_txs ++ [⟨eid, tid, A - USDT_WITHDRAW_FEE, "withdrawal", "pending",
          some (pyTake addr 256),
          (match m with
           | some s => if s = "" then none else some (pyTake s 128)
           | none => none),
          none⟩] } := by
  simp [usdt_withdraw, hb, hnl]

/-- The shared "mark failed and reverse the debit" tail of the settler. -/
theorem process_one_withdrawal_fail (db : LedgerDB) (eid : String)
    (tx : UsdtTransaction) (a : String)
    (hfind : findTx db eid = some tx) (hmemo : tx.memo = some a)
    (hane : a ≠ "") (halen : 40 ≤ a.length)
    (bal : UserBalance) (hbal : lookupBal db.balances tx.telegram_id "usdt" = some bal)
    (hneg : ¬ bal.available < 0)
    (sendResult : Option (Option String)) (foundHash : Option String)
    (v1 v2 v3 : Option Bool)
    (hfail : sendResult = none ∨ firstVerify foundHash v1 v2 v3 = some false) :
    (process_one_withdrawal db eid sendResult foundHash v1 v2 v3).balances =
      refund_withdrawal db.balances tx.telegram_id tx.amount USDT_WITHDRAW_FEE ∧
    (findTx (process_one_withdrawal db eid sendResult foundHash v1 v2 v3) eid).map
      (fun t => t.status) = some "failed" := by
  have hnlt : ¬ a.length < 40 := not_lt.mpr halen
  have hmb : (a == "" || decide (a.length < 40)) = false := by
    simp [hane, hnlt]
  cases sendResult with
  | none =>
    unfold process_one_withdrawal
    rw [hfind]
    simp only [hmemo, hmb, Bool.false_eq_true, if_false, hbal, hneg]
    refine ⟨rfl, ?_⟩
    show (findTx (updateTx db eid (fun t => { t with status := "failed" })) eid).map
      (fun t => t.status) = some "failed"
    rw [findTx_updateTx db eid (fun t => { t with status := "failed" }) (fun t => rfl), hfind]
    rfl
  | some jw =>
    have hv : firstVerify foundHash v1 v2 v3 = some false := by
      rcases hfail with h | h
      · exact absurd h (by simp)
      · exact h
    unfold process_one_withdrawal
    rw [hfind]
    simp only [hmemo, hmb, Bool.false_eq_true, if_false, hbal, hneg, hv]
    refine ⟨rfl, ?_⟩
    show (findTx (updateTx (updateTx db eid (fun t => { t with tx_hash := foundHash }))
        eid (fun t => { t with status := "failed" })) eid).map
      (fun t => t.status) = some "failed"
    rw [findTx_updateTx (updateTx db eid (fun t => { t with tx_hash := foundHash })) eid
      (fun t => { t with status := "failed" }) (fun t => rfl)]
    rw [findTx_updateTx db eid (fun t => { t with tx_hash := foundHash }) (fun t => rfl), hfind]
    rfl

/-- C4: Withdrawal failure refund — after an accepted USDT withdrawal request
of amount `A` (0.3 USDT fee included in `A`), a settler run in which the chain
send fails, or finality explicitly reports failure, marks the request
`failed` and restores the user's balance row (available and total_withdrawn)
to exactly its pre-request value. -/
theorem withdrawal_failure_refund (db : LedgerDB) (tid : Int) (A : ℚ) (addr : String)
    (m : Option String) (eid : String) (b : UserBalance)
    (hb : lookupBal db.balances tid "usdt" = some b)
    (hA : A ≤ b.available)
    (haddr : 40 ≤ addr.length)
    (hfresh : findTx db eid = none)
    (sendResult : Option (Option String)) (foundHash : Option String)
    (v1 v2 v3 : Option Bool)
    (hfail : sendResult = none ∨ firstVerify foundHash v1 v2 v3 = some false) :
    ∃ db1, usdt_withdraw db tid A addr m eid = .ok db1 ∧
      lookupBal (process_one_withdrawal db1 eid sendResult foundHash v1 v2 v3).balances
        tid "usdt" = some b ∧
      (findTx (process_one_withdrawal db1 eid sendResult foundHash v1 v2 v3) eid).map
        (fun t => t.status) = some "failed" := by
  have hnl : ¬ b.available < A := not_lt.mpr hA
  have hlen : (pyTake addr 256).length = min 256 addr.length := by
    show (addr.data.take 256).length = min 256 addr.length
    rw [List.length_take]
    rfl
  have h40 : 40 ≤ (pyTake addr 256).length := by
    rw [hlen]
    exact le_min (by norm_num) haddr
  have hane : (pyTake addr 256) ≠ "" := by
    intro h
    rw [h] at h40
    simp at h40
  have hbal1 : lookupBal (updateBal db.balances tid "usdt" (fun bb =>
      { bb with available := bb.available - A,
                total_withdrawn := bb.total_withdrawn + A })) tid "usdt" =
      some { b with available := b.available - A,
                    total_withdrawn := b.total_withdrawn + A } := by
    rw [lookupBal_updateBal db.balances tid "usdt"
      (fun bb => { bb with available := bb.available - A, total_withdrawn := bb.total_withdrawn + A })
      (fun bb => ⟨rfl, rfl⟩), hb]
    rfl
  have hneg : ¬ ({ b with available := b.available - A, total_withdrawn := b.total_withdrawn + A } : UserBalance).available < 0 := by
    dsimp only
    rw [not_lt]
    exact sub_nonneg.mpr hA
  refine ⟨_, usdt_withdraw_ok db tid A addr m eid b hb hnl, ?_⟩
  have htx1 : findTx
      { db with
        balances := updateBal db.balances tid "usdt" (fun bb =>
          { bb with available := bb.available - A,
                    total_withdrawn := bb.total_withdrawn + A }),
        usdt_txs := db.usdt_txs ++ [⟨eid, tid, A - USDT_WITHDRAW_FEE, "withdrawal", "pending",
          some (pyTake addr 256),
          (match m with
           | some s => if s = "" then none else some (pyTake s 128)
           | none => none),
          none⟩] } eid = some ⟨eid, tid, A - USDT_WITHDRAW_FEE, "withdrawal", "pending",
          some (pyTake addr 256),
          (match m with
           | some s => if s = "" then none else some (pyTake s 128)
           | none => none),
          none⟩ := by
    unfold findTx at hfresh ⊢
    simp only [find?_append_first, hfresh]
    simp
  have hmain := process_one_withdrawal_fail _ eid _ (pyTake addr 256) htx1 rfl hane h40
    _ hbal1 hneg sendResult foundHash v1 v2 v3 hfail
  refine ⟨?_, hmain.2⟩
  rw [hmain.1]
  unfold refund_withdrawal
  rw [hbal1]
  rw [lookupBal_updateBal _ tid "usdt"
    (fun bb => { bb with available := bb.available + (A - USDT_WITHDRAW_FEE + USDT_WITHDRAW_FEE), total_withdrawn := bb.total_withdrawn - (A - USDT_WITHDRAW_FEE + USDT_WITHDRAW_FEE) })
    (fun bb => ⟨rfl, rfl⟩), hbal1]
  cases b
  simp

/-- C4 witness: user 50 (20 USDT available, 7 withdrawn) requests a 10 USDT
withdrawal; the chain send fails; the settler marks it failed and the balance
row is exactly restored. -/
theorem withdrawal_failure_refund_witness :
    ∃ db1, usdt_withdraw wdDB 50 10 wdAddr none "wd_1" = .ok db1 ∧
      lookupBal (process_one_withdrawal db1 "wd_1" none none none none none).balances
        50 "usdt" = some ⟨50, "usdt", 20, 0, 0, 7⟩ ∧
      (findTx (process_one_withdrawal db1 "wd_1" none none none none none) "wd_1").map
        (fun t => t.status) = some "failed" :=
  withdrawal_failure_refund wdDB 50 10 wdAddr none "wd_1" ⟨50, "usdt", 20, 0, 0, 7⟩ rfl
    (by norm_num) (by decide) rfl none none none none none (Or.inl rfl)

/-- C7: Optimistic completion on unknown finality — for a pending withdrawal
whose chain send succeeds but whose transaction hash is not found, or whose
finality check stays unknown on all three bounded attempts, the settler marks
the request `completed`, stores whatever hash was found, and leaves every
balance untouched (no reversal of the earlier debit). -/
theorem withdrawal_unknown_completes (db : LedgerDB) (eid : String)
    (tx : UsdtTransaction) (a : String) (b : UserBalance)
    (hfind : findTx db eid = some tx)
    (hmemo : tx.memo = some a) (hane : a ≠ "") (halen : 40 ≤ a.length)
    (hbal : lookupBal db.balances tx.telegram_id "usdt" = some b)
    (hav : 0 ≤ b.available)
    (jw : Option String) (foundHash : Option String) (v1 v2 v3 : Option Bool)
    (hunk : firstVerify foundHash v1 v2 v3 = none) :
    (process_one_withdrawal db eid (some jw) foundHash v1 v2 v3).balances = db.balances ∧
    findTx (process_one_withdrawal db eid (some jw) foundHash v1 v2 v3) eid =
      some { tx with status := "completed", tx_hash := foundHash } := by
  have hnlt : ¬ a.length < 40 := not_lt.mpr halen
  have hmb : (a == "" || decide (a.length < 40)) = false := by
    simp [hane, hnlt]
  have hneg : ¬ b.available < 0 := not_lt.mpr hav
  have hmb2 : (match tx.memo with
      | none => true
      | some x => x == "" || decide (x.length < 40)) = false := by
    rw [hmemo]
    exact hmb
  unfold process_one_withdrawal
  rw [hfind]
  simp only [hmb2, Bool.false_eq_true, if_false, hbal, hneg, hunk]
  constructor
  · rfl
  · show (findTx (updateTx (updateTx db eid (fun t => { t with tx_hash := foundHash })) eid
        (fun t => { t with status := "completed" })) eid) =
      some { tx with status := "completed", tx_hash := foundHash }
    rw [findTx_updateTx (updateTx db eid (fun t => { t with tx_hash := foundHash })) eid
      (fun t => { t with status := "completed" }) (fun t => rfl)]
    rw [findTx_updateTx db eid (fun t => { t with tx_hash := foundHash }) (fun t => rfl), hfind]
    rfl

/-- C7 witness: pending withdrawal wd_2 (send succeeded, hash "h0" found, all
three finality checks unknown) is marked completed with the hash stored and
balances untouched. -/
theorem withdrawal_unknown_completes_witness :
    (process_one_withdrawal unkDB "wd_2" (some none) (some "h0") none none none).balances =
      unkDB.balances ∧
    findTx (process_one_withdrawal unkDB "wd_2" (some none) (some "h0") none none none)
      "wd_2" = some ⟨"wd_2", 60, 97 / 10, "withdrawal", "completed", some wdAddr, none,
        some "h0"⟩ :=
  withdrawal_unknown_completes unkDB "wd_2"
    ⟨"wd_2", 60, 97 / 10, "withdrawal", "pending", some wdAddr, none, none⟩ wdAddr
    ⟨60, "usdt", 5, 0, 0, 10⟩ rfl rfl (by decide) (by decide) rfl (by norm_num)
    none (some "h0") none none none rfl

/-- C8 counterexample: the scanner credits the numeric memo "42" even though
42 is not a registered user — `scan_usdt_deposits` never consults the `users`
table, so "known user identifier" does not hold: a balance row for the
unknown id 42 is created and the event is counted as credited. -/
theorem memo_attribution_counterexample :
    strayMemoDB.users.all (fun u => u != 42) = true ∧
    lookupBal (scan_usdt_deposits strayMemoDB [strayMemoEvent]).1.balances 42 "usdt" =
      some ⟨42, "usdt", 1, 0, 1, 0⟩ ∧
    (scan_usdt_deposits strayMemoDB [strayMemoEvent]).2 = 1 := by
  refine ⟨by decide, ?_, ?_⟩
  · norm_num [scan_usdt_deposits, processDepositEvent, strayMemoDB, strayMemoEvent,
      resolveEventId, pyOrStr, already_processed, firstCreditable, parse_jetton_transfer,
      normMemo, pyIsDigit, pyStrip, pyToNat, credit_usdt, lookupBal, updateBal, updateFirst,
      List.find?]
    decide
  · norm_num [scan_usdt_deposits, processDepositEvent, strayMemoDB, strayMemoEvent,
      resolveEventId, pyOrStr, already_processed, firstCreditable, parse_jetton_transfer,
      normMemo, pyIsDigit, pyStrip, pyToNat, credit_usdt]
    decide

/-- C8 (amended): for a fetched event with a fresh unique id, the scanner
credits a user if and only if some action parses as a positive Jetton
transfer whose stripped memo is a nonempty all-digit string — that digit
string is taken as the telegram id, with no check that it names a registered
user.  If no action qualifies, the state is left completely unchanged (no
balance change, no record). -/
theorem memo_attribution (db : LedgerDB) (ev : DepositEvent)
    (hid : resolveEventId ev ≠ "")
    (hfresh : already_processed db ("usdt_" ++ resolveEventId ev) = false) :
    (firstCreditable ev.actions = none → processDepositEvent db ev = (db, 0)) ∧
    (∀ amt tid, firstCreditable ev.actions = some (amt, tid) →
      availOf (processDepositEvent db ev).1 tid = availOf db tid + amt ∧
      already_processed (processDepositEvent db ev).1 ("usdt_" ++ resolveEventId ev) = true ∧
      (processDepositEvent db ev).2 = 1) := by
  constructor
  · intro hc
    exact process_noop db ev (Or.inr (Or.inl hc))
  · intro amt tid hc
    have hstep : processDepositEvent db ev =
        (credit_usdt db tid amt ("usdt_" ++ resolveEventId ev), 1) := by
      unfold processDepositEvent
      simp [hid, hfresh, hc]
    rw [hstep]
    exact ⟨(credit_usdt_effect db tid amt _).1, (credit_usdt_effect db tid amt _).2, rfl⟩

/-- C8 witness: event e7 with memo " 314 " (stripped to the digits "314")
credits user 314 with 2 USDT and records the event. -/
theorem memo_attribution_witness :
    availOf (processDepositEvent memoDB memoEvent).1 314 = availOf memoDB 314 + 2 ∧
    already_processed (processDepositEvent memoDB memoEvent).1 "usdt_e7" = true ∧
    (processDepositEvent memoDB memoEvent).2 = 1 :=
  (memo_attribution memoDB memoEvent (by decide) (by decide)).2 2 314 (by
    norm_num [firstCreditable, memoEvent, parse_jetton_transfer, normMemo, pyIsDigit,
      pyStrip, pyToNat]
    decide)

/-- C9 counterexample: order 9 is `done` and unverified; its published post
no longer exists (`_fetch_post_content` returned absent).  The verifier
leaves the order untouched and notifies nobody — the buyer (77) and seller
(88) receive no tampering notification, contrary to the claim. -/
theorem missing_post_counterexample :
    missingPostOrder.status = "done" ∧
    missingPostOrder.verified_at = none ∧
    verify_order_step missingPostOrder false "anything" 99 = (missingPostOrder, []) :=
  ⟨rfl, rfl, rfl⟩

/-- C9 (amended): for every due order whose published message no longer
exists, the delivery verifier leaves the order untouched (`verified_at` stays
unset) and sends no notification at all — the missing post is only logged for
manual follow-up. -/
theorem missing_post_no_notification (o : Order) (current : String) (now : Int) :
    verify_order_step o false current now = (o, []) := rfl

/-- C10: Empty expected content always verifies — with an empty expected
text, `_content_matches` returns true for every live content string, and the
verifier's marking step sets `verified_at = now` with no notification,
regardless of what is currently published. -/
theorem empty_expected_always_verifies (o : Order) (current : String) (now : Int) :
    content_matches "" current o = true ∧
    (verify_mark o "" current now).1.verified_at = some now ∧
    (verify_mark o "" current now).2 = [] :=
  ⟨rfl, rfl, rfl⟩

end AdsMarket
